import Mathlib

/-!
Shallow embedding of the CRM mutation/validation engine of `crm/schema.py`
(repository `alx-backend-graphql_crm`).

Modelling conventions:
* Python `Decimal` values are modelled as exact rationals (`ℚ`); both are
  exact decimal arithmetic, which is the only property the code relies on.
* The entity store (the Django ORM plus its transactional contract of
  atomic commit and savepoint rollback, an external collaborator of this
  repository) is modelled as an explicit `State` value threaded through the
  mutations; a savepoint rollback returns the state captured at the
  savepoint, an aborted atomic block returns the state from before it.
* Python exceptions are modelled by `Except`/sum results: `PyErr.graphql`
  is a raised `GraphQLError`, `PyErr.exc` any other exception.  Places
  where the source can only fail through the storage backend (a customer
  `save()` inside the bulk loop, the product-link assignment of an order)
  take an explicit fault oracle describing which of those calls raise.
* GraphQL `ID` inputs are modelled by `GId`: either a value that `int()`
  parses, or an unparsable one.  A price input is either a value whose
  `str` form `Decimal` parses into an exact decimal, or an unparsable one.
-/

namespace Crm

/-- Model of Python `str.strip`: drop leading and trailing whitespace. -/
def pyStrip (s : String) : String :=
  ⟨(((s.toList.dropWhile Char.isWhitespace).reverse).dropWhile Char.isWhitespace).reverse⟩

/-- Model of the case folding used by the Django `__iexact` lookup. -/
def pyLower (s : String) : String :=
  ⟨s.toList.map Char.toLower⟩

/-- The `+\d{10,15}` alternative of `PHONE_RE`. -/
def plusFormat : List Char → Bool
  | '+' :: rest => rest.all Char.isDigit && decide (10 ≤ rest.length) && decide (rest.length ≤ 15)
  | _ => false

/-- The `\d{3}-\d{3}-\d{4}` alternative of `PHONE_RE`. -/
def dashFormat : List Char → Bool
  | [a, b, c, '-', d, e, f, '-', g, h, i, j] =>
      [a, b, c, d, e, f, g, h, i, j].all Char.isDigit
  | _ => false

/-- Model of `PHONE_RE.match`: the regex is anchored at both ends, and the
`$` anchor of Python also matches just before one trailing newline. -/
def phoneREMatch (s : String) : Bool :=
  let cs := s.toList
  plusFormat cs || dashFormat cs ||
    (match cs.getLast? with
     | some c => c = '\n' && (plusFormat cs.dropLast || dashFormat cs.dropLast)
     | none => false)

/-- A persisted `Customer` row (model `crm.models.Customer` as used by
`crm/schema.py`: surrogate key plus the fields the mutations write). -/
structure Customer where
  id : Int
  name : String
  email : String
  phone : String
deriving DecidableEq

/-- A persisted `Product` row; `price` is a `Decimal`, modelled exactly. -/
structure Product where
  id : Int
  name : String
  price : ℚ
  stock : Int
deriving DecidableEq

/-- A persisted `Order` row together with its product links
(`order.products`). -/
structure Order where
  id : Int
  customerId : Int
  productIds : List Int
  orderDate : Int
  totalAmount : ℚ
deriving DecidableEq

/-- The entity store: the three tables plus the auto-increment counters
used for fresh primary keys. -/
structure State where
  customers : List Customer
  products : List Product
  orders : List Order
  nextCid : Int
  nextOid : Int
deriving DecidableEq

/-- A Python exception: a `GraphQLError` or any other exception. -/
inductive PyErr where
  | graphql (msg : String)
  | exc (msg : String)
deriving DecidableEq

/-- The `EMAIL_EXISTS_MSG` constant from the source. -/
def EMAIL_EXISTS_MSG : String := "Email already exists."

/-- Model of `validate_email_unique`: raise if any existing customer
matches the given email under `__iexact`. -/
def validate_email_unique (st : State) (email : String) : Except PyErr Unit :=
  if st.customers.any (fun c => pyLower c.email = pyLower email) then
    .error (.graphql EMAIL_EXISTS_MSG)
  else
    .ok ()

/-- Model of `validate_phone`: a no-op on a falsy phone, else the regex
check. -/
def validate_phone (phone : Option String) : Except PyErr Unit :=
  match phone with
  | none => .ok ()
  | some p =>
      if p ≠ "" && !(phoneREMatch p) then
        .error (.graphql "Invalid phone format. Use +1234567890 or 123-456-7890.")
      else
        .ok ()

/-- A price argument as it reaches `validate_price_and_stock`: either a
value whose `str` form parses into the exact decimal `q`, or one on which
`Decimal(str(price))` raises. -/
inductive PriceIn where
  | num (q : ℚ)
  | bad
deriving DecidableEq

/-- Model of `validate_price_and_stock` from the source, in the source's check
order: parse, positivity, stock sign, then the normalized pair with the
stock defaulted to `0`. -/
def validate_price_and_stock (price : PriceIn) (stock : Option Int) : Except PyErr (ℚ × Int) :=
  match price with
  | .bad => .error (.graphql "Price must be a valid decimal number.")
  | .num q =>
      if q ≤ 0 then .error (.graphql "Price must be positive.")
      else
        match stock with
        | some k =>
            if k < 0 then .error (.graphql "Stock cannot be negative.")
            else .ok (q, k)
        | none => .ok (q, 0)

/-- Construction and `save()` of one customer row with trimmed name and
email and `phone or ""`: append the row and bump the key counter. -/
def saveCustomer (st : State) (name email : String) (phone : Option String) : State × Customer :=
  let cust : Customer := ⟨st.nextCid, pyStrip name, pyStrip email, phone.getD ""⟩
  ({ st with customers := st.customers ++ [cust], nextCid := st.nextCid + 1 }, cust)

/-- Model of `CreateCustomer.mutate`: validate email uniqueness and phone format,
then persist.  An error leaves the store untouched. -/
def createCustomer (st : State) (name email : String) (phone : Option String) :
    State × Except PyErr Customer :=
  match validate_email_unique st email with
  | .error e => (st, .error e)
  | .ok _ =>
      match validate_phone phone with
      | .error e => (st, .error e)
      | .ok _ =>
          let r := saveCustomer st name email phone
          (r.1, .ok r.2)

/-- One element of the `customers` argument of `BulkCreateCustomers`. -/
structure CustomerInput where
  name : String
  email : String
  phone : Option String
deriving DecidableEq

/-- One element of the `errors` list of `BulkCreateCustomers`
(`BulkErrorType`). -/
structure BulkError where
  index : Nat
  email : Option String
  message : String
deriving DecidableEq

/-- The body of the `try` block of the bulk loop for one input, including
the storage fault oracle for `obj.save()`. -/
def tryItem (st : State) (fault : Nat → Option String) (idx : Nat) (c : CustomerInput) :
    Except PyErr (State × Customer) :=
  if c.name = "" ∨ c.email = "" then
    .error (.graphql "Both name and email are required.")
  else
    match validate_email_unique st c.email with
    | .error e => .error e
    | .ok _ =>
        match validate_phone c.phone with
        | .error e => .error e
        | .ok _ =>
            match fault idx with
            | some m => .error (.exc m)
            | none => .ok (saveCustomer st c.name c.email c.phone)

/-- One iteration of the bulk loop: run the `try` block under a savepoint;
on success keep the new state, on any exception roll back to the savepoint
and convert the exception into a `BulkError` entry. -/
def processItem (st : State) (fault : Nat → Option String) (idx : Nat) (c : CustomerInput) :
    State × (Customer ⊕ BulkError) :=
  match tryItem st fault idx c with
  | .ok r => (r.1, .inl r.2)
  | .error (.graphql m) => (st, .inr ⟨idx, some c.email, m⟩)
  | .error (.exc m) => (st, .inr ⟨idx, some c.email, "Unexpected error: " ++ m⟩)

/-- The `for idx, c in enumerate(customers)` loop of
`BulkCreateCustomers.mutate`, accumulating `created` and `errors`. -/
def bulkLoop (fault : Nat → Option String) :
    State → Nat → List CustomerInput → State × List Customer × List BulkError
  | st, _, [] => (st, [], [])
  | st, idx, c :: rest =>
      match processItem st fault idx c with
      | (st', .inl cust) =>
          let r := bulkLoop fault st' (idx + 1) rest
          (r.1, cust :: r.2.1, r.2.2)
      | (st', .inr err) =>
          let r := bulkLoop fault st' (idx + 1) rest
          (r.1, r.2.1, err :: r.2.2)

/-- Model of `BulkCreateCustomers.mutate`: the whole batch inside one outer
transaction, per-item savepoints inside it. -/
def bulkCreateCustomers (st : State) (fault : Nat → Option String)
    (customers : List CustomerInput) : State × List Customer × List BulkError :=
  bulkLoop fault st 0 customers

/-- The store state the bulk loop has reached just before processing the
item at position `k`. -/
def stateAt (st : State) (fault : Nat → Option String) (inputs : List CustomerInput)
    (k : Nat) : State :=
  (bulkLoop fault st 0 (inputs.take k)).1

/-- Model of `CreateProduct.mutate`. -/
def createProduct (st : State) (name : String) (price : PriceIn) (stock : Option Int) :
    State × Except PyErr Product :=
  match validate_price_and_stock price stock with
  | .error e => (st, .error e)
  | .ok (q, k) =>
      if pyStrip name = "" then (st, .error (.graphql "Product name is required."))
      else
        let product : Product := ⟨st.nextCid, pyStrip name, q, k⟩
        ({ st with products := st.products ++ [product], nextCid := st.nextCid + 1 },
         .ok product)

/-- A GraphQL `ID` argument: either a value `int()` parses, or not. -/
inductive GId where
  | val (n : Int)
  | bad
deriving DecidableEq

/-- Parse of `int(pid)` for one id. -/
def parseId : GId → Option Int
  | .val n => some n
  | .bad => none

/-- Model of the `pk__in` product fetch: each stored product row appears
at most once however often its id is requested. -/
def foundProducts (st : State) (pks : List Int) : List Product :=
  st.products.filter (fun p => decide (p.id ∈ pks))

/-- Model of the sorted set difference between the requested ids and the
found product ids: a sorted list of distinct missing ids. -/
def missingSorted (pks : List Int) (products : List Product) : List Int :=
  ((pks.filter (fun pk => decide (pk ∉ products.map Product.id))).dedup).insertionSort (· ≤ ·)

/-- The tail of `CreateOrder.mutate` once the customer is resolved and the
product ids are parsed: missing-product check, exact total, then the
atomic create-row/set-links block (a fault in the link step aborts the
block, which rolls every step back). -/
def createOrderWithPks (st : State) (cpk : Int) (pks : List Int) (orderDate : Option Int)
    (now : Int) (linkFault : Option String) : State × Except PyErr Order :=
  let products := foundProducts st pks
  let missing := missingSorted pks products
  if missing ≠ [] then
    (st, .error (.graphql ("Invalid product ID(s): " ++ toString missing)))
  else
    let total : ℚ := (products.map Product.price).sum
    let order0 : Order := ⟨st.nextOid, cpk, [], orderDate.getD now, total⟩
    let st1 := { st with orders := st.orders ++ [order0], nextOid := st.nextOid + 1 }
    match linkFault with
    | some m => (st, .error (.exc m))
    | none =>
        let order : Order := { order0 with productIds := products.map Product.id }
        (({ st1 with orders := st.orders ++ [order] }), .ok order)

/-- Model of `CreateOrder.mutate`; `now` stands for `timezone.now()`. -/
def createOrder (st : State) (customerId : GId) (productIds : List GId)
    (orderDate : Option Int) (now : Int) (linkFault : Option String) :
    State × Except PyErr Order :=
  if productIds = [] then
    (st, .error (.graphql "At least one product must be selected."))
  else
    match customerId with
    | .bad => (st, .error (.graphql "Invalid customer ID."))
    | .val cpk =>
        match st.customers.find? (fun c => c.id = cpk) with
        | none => (st, .error (.graphql "Customer not found."))
        | some _ =>
            match productIds.mapM parseId with
            | none => (st, .error (.graphql "All product IDs must be integers."))
            | some pks => createOrderWithPks st cpk pks orderDate now linkFault

/-- The fault oracle of a run in which the storage backend never fails. -/
def noFault : Nat → Option String := fun _ => none

/-- An empty store. -/
def emptyStore : State := ⟨[], [], [], 1, 1⟩

/-- A store with one customer and two products, priced 999.99 and 499.99. -/
def demoStore : State :=
  ⟨[⟨1, "Alice", "alice@example.com", ""⟩],
   [⟨1, "Laptop", mkRat 99999 100, 10⟩, ⟨2, "Phone", mkRat 49999 100, 25⟩], [], 2, 1⟩

/-- Pairwise case-insensitive distinctness of the stored customer emails. -/
def EmailsDistinct (st : State) : Prop :=
  st.customers.Pairwise (fun a b => pyLower a.email ≠ pyLower b.email)

instance (st : State) : Decidable (EmailsDistinct st) := by
  unfold EmailsDistinct
  infer_instance

lemma validate_email_unique_ok {st : State} {email : String}
    (h : validate_email_unique st email = .ok ()) :
    ∀ c ∈ st.customers, pyLower c.email ≠ pyLower email := by
  intro c hc heq
  unfold validate_email_unique at h
  rw [if_pos] at h
  · exact Except.noConfusion h
  · exact List.any_eq_true.mpr ⟨c, hc, decide_eq_true heq⟩

lemma validate_email_unique_err {st : State} {email : String} {c : Customer}
    (hc : c ∈ st.customers) (heq : pyLower c.email = pyLower email) :
    validate_email_unique st email = .error (.graphql EMAIL_EXISTS_MSG) := by
  unfold validate_email_unique
  rw [if_pos (List.any_eq_true.mpr ⟨c, hc, decide_eq_true heq⟩)]

lemma tryItem_ok {st st' : State} {fault : Nat → Option String} {idx : Nat}
    {c : CustomerInput} {cust : Customer}
    (h : tryItem st fault idx c = .ok (st', cust)) :
    (st', cust) = saveCustomer st c.name c.email c.phone ∧
    c.name ≠ "" ∧ c.email ≠ "" ∧
    validate_email_unique st c.email = .ok () ∧
    validate_phone c.phone = .ok () ∧ fault idx = none := by
  unfold tryItem at h
  split at h
  · exact Except.noConfusion h
  case isFalse hne =>
    revert h
    cases hval : validate_email_unique st c.email with
    | error e => intro h; exact Except.noConfusion h
    | ok u =>
      cases hph : validate_phone c.phone with
      | error e => intro h; exact Except.noConfusion h
      | ok v =>
        cases hf : fault idx with
        | some m => intro h; exact Except.noConfusion h
        | none =>
          intro h
          have hne' := not_or.mp hne
          cases u; cases v
          exact ⟨(Except.ok.inj h).symm, hne'.1, hne'.2, rfl, rfl, rfl⟩

lemma processItem_inl {st st' : State} {fault : Nat → Option String} {idx : Nat}
    {c : CustomerInput} {cust : Customer}
    (h : processItem st fault idx c = (st', .inl cust)) :
    tryItem st fault idx c = .ok (st', cust) := by
  unfold processItem at h
  revert h
  cases htr : tryItem st fault idx c with
  | ok r =>
    intro h
    have h1 : r.1 = st' := (Prod.mk.inj h).1
    have h2 : r.2 = cust := Sum.inl.inj (Prod.mk.inj h).2
    rw [← h1, ← h2, Prod.mk.eta]
  | error e =>
    cases e with
    | graphql m => intro h; exact absurd (Prod.mk.inj h).2 (by simp)
    | exc m => intro h; exact absurd (Prod.mk.inj h).2 (by simp)

lemma processItem_inr {st st' : State} {fault : Nat → Option String} {idx : Nat}
    {c : CustomerInput} {e : BulkError}
    (h : processItem st fault idx c = (st', .inr e)) :
    st' = st ∧ e.index = idx ∧ e.email = some c.email := by
  unfold processItem at h
  revert h
  cases htr : tryItem st fault idx c with
  | ok r => intro h; exact absurd (Prod.mk.inj h).2 (by simp)
  | error err =>
    cases err with
    | graphql m =>
      intro h
      obtain ⟨h1, h2⟩ := Prod.mk.inj h
      exact ⟨h1.symm, by rw [← Sum.inr.inj h2], by rw [← Sum.inr.inj h2]⟩
    | exc m =>
      intro h
      obtain ⟨h1, h2⟩ := Prod.mk.inj h
      exact ⟨h1.symm, by rw [← Sum.inr.inj h2], by rw [← Sum.inr.inj h2]⟩

lemma bulkLoop_nil (fault : Nat → Option String) (st : State) (idx : Nat) :
    bulkLoop fault st idx [] = (st, [], []) := rfl

lemma bulkLoop_cons_inl {st st' : State} {fault : Nat → Option String} {idx : Nat}
    {c : CustomerInput} {cust : Customer} {rest : List CustomerInput}
    (hp : processItem st fault idx c = (st', .inl cust)) :
    bulkLoop fault st idx (c :: rest) =
      ((bulkLoop fault st' (idx + 1) rest).1,
       cust :: (bulkLoop fault st' (idx + 1) rest).2.1,
       (bulkLoop fault st' (idx + 1) rest).2.2) := by
  simp [bulkLoop, hp]

lemma bulkLoop_cons_inr {st st' : State} {fault : Nat → Option String} {idx : Nat}
    {c : CustomerInput} {err : BulkError} {rest : List CustomerInput}
    (hp : processItem st fault idx c = (st', .inr err)) :
    bulkLoop fault st idx (c :: rest) =
      ((bulkLoop fault st' (idx + 1) rest).1,
       (bulkLoop fault st' (idx + 1) rest).2.1,
       err :: (bulkLoop fault st' (idx + 1) rest).2.2) := by
  simp [bulkLoop, hp]

lemma saveCustomer_preserves {st : State} {name email : String} {phone : Option String}
    (hd : EmailsDistinct st) (htrim : pyStrip email = email)
    (hok : validate_email_unique st email = .ok ()) :
    EmailsDistinct (saveCustomer st name email phone).1 := by
  have hne := validate_email_unique_ok hok
  show (st.customers ++
      [(⟨st.nextCid, pyStrip name, pyStrip email, phone.getD ""⟩ : Customer)]).Pairwise
      (fun a b => pyLower a.email ≠ pyLower b.email)
  rw [List.pairwise_append]
  refine ⟨hd, List.pairwise_singleton _ _, ?_⟩
  intro a ha b hb
  rw [List.mem_singleton] at hb
  subst hb
  simpa [htrim] using hne a ha

lemma bulkLoop_preserves_distinct (fault : Nat → Option String) :
    ∀ (inputs : List CustomerInput) (st : State) (idx : Nat), EmailsDistinct st →
      (∀ c ∈ inputs, pyStrip c.email = c.email) →
      EmailsDistinct (bulkLoop fault st idx inputs).1 := by
  intro inputs
  induction inputs with
  | nil => intro st idx hd _; exact hd
  | cons c rest ih =>
    intro st idx hd htr
    rcases hp : processItem st fault idx c with ⟨st', o⟩
    cases o with
    | inl cust =>
      rw [bulkLoop_cons_inl hp]
      obtain ⟨hsave, _, _, hval, _, _⟩ := tryItem_ok (processItem_inl hp)
      have hst : st' = (saveCustomer st c.name c.email c.phone).1 := congrArg Prod.fst hsave
      refine ih _ (idx + 1) ?_ (fun d hd' => htr d (List.mem_cons_of_mem c hd'))
      rw [hst]
      exact saveCustomer_preserves hd (htr c (List.mem_cons_self c rest)) hval
    | inr err =>
      rw [bulkLoop_cons_inr hp]
      exact ih _ (idx + 1) ((processItem_inr hp).1 ▸ hd)
        (fun d hd' => htr d (List.mem_cons_of_mem c hd'))

lemma bulkLoop_length (fault : Nat → Option String) :
    ∀ (inputs : List CustomerInput) (st : State) (idx : Nat),
      (bulkLoop fault st idx inputs).2.1.length + (bulkLoop fault st idx inputs).2.2.length =
        inputs.length := by
  intro inputs
  induction inputs with
  | nil => intro st idx; rfl
  | cons c rest ih =>
    intro st idx
    rcases hp : processItem st fault idx c with ⟨st', o⟩
    cases o with
    | inl cust =>
      rw [bulkLoop_cons_inl hp]
      have := ih st' (idx + 1)
      simp only [List.length_cons]
      omega
    | inr err =>
      rw [bulkLoop_cons_inr hp]
      have := ih st' (idx + 1)
      simp only [List.length_cons]
      omega

lemma bulkLoop_err_bounds (fault : Nat → Option String) :
    ∀ (inputs : List CustomerInput) (st : State) (idx : Nat),
      ((bulkLoop fault st idx inputs).2.2.map BulkError.index).Sorted (· < ·) ∧
      ∀ e ∈ (bulkLoop fault st idx inputs).2.2,
        idx ≤ e.index ∧ e.index < idx + inputs.length := by
  intro inputs
  induction inputs with
  | nil =>
    intro st idx
    exact ⟨List.sorted_nil, fun e he => absurd he (List.not_mem_nil e)⟩
  | cons c rest ih =>
    intro st idx
    rcases hp : processItem st fault idx c with ⟨st', o⟩
    cases o with
    | inl cust =>
      rw [bulkLoop_cons_inl hp]
      obtain ⟨hs, hb⟩ := ih st' (idx + 1)
      refine ⟨hs, fun e he => ?_⟩
      have := hb e he
      simp only [List.length_cons]
      omega
    | inr err =>
      rw [bulkLoop_cons_inr hp]
      obtain ⟨hs, hb⟩ := ih st' (idx + 1)
      have hidx : err.index = idx := (processItem_inr hp).2.1
      constructor
      · rw [List.map_cons, List.sorted_cons]
        refine ⟨fun b hb' => ?_, hs⟩
        obtain ⟨e, he, hbe⟩ := List.mem_map.mp hb'
        have := (hb e he).1
        omega
      · intro e he
        rw [List.mem_cons] at he
        cases he with
        | inl h => subst h; simp only [List.length_cons]; omega
        | inr h =>
          have := hb e h
          simp only [List.length_cons]
          omega

lemma bulkLoop_outcomes (fault : Nat → Option String) :
    ∀ (inputs : List CustomerInput) (st : State) (idx : Nat),
      ∃ oc : List (Customer ⊕ BulkError),
        oc.length = inputs.length ∧
        (bulkLoop fault st idx inputs).2.1 = oc.filterMap Sum.getLeft? ∧
        (bulkLoop fault st idx inputs).2.2 = oc.filterMap Sum.getRight? ∧
        ∀ (k : Nat) (hk : k < oc.length) (e : BulkError),
          oc.get ⟨k, hk⟩ = Sum.inr e → e.index = idx + k := by
  intro inputs
  induction inputs with
  | nil =>
    intro st idx
    exact ⟨[], rfl, rfl, rfl, fun k hk => absurd hk (Nat.not_lt_zero k)⟩
  | cons c rest ih =>
    intro st idx
    rcases hp : processItem st fault idx c with ⟨st', o⟩
    obtain ⟨oc, h1, h2, h3, h4⟩ := ih st' (idx + 1)
    cases o with
    | inl cust =>
      refine ⟨Sum.inl cust :: oc, by simp [h1], ?_, ?_, ?_⟩
      · rw [bulkLoop_cons_inl hp, List.filterMap_cons]
        simpa using h2
      · rw [bulkLoop_cons_inl hp, List.filterMap_cons]
        simpa using h3
      · intro k hk e he
        cases k with
        | zero => exact Sum.noConfusion he
        | succ k' =>
          rw [List.get_cons_succ] at he
          have := h4 k' (by simpa using hk) e he
          omega
    | inr err =>
      refine ⟨Sum.inr err :: oc, by simp [h1], ?_, ?_, ?_⟩
      · rw [bulkLoop_cons_inr hp, List.filterMap_cons]
        simpa using h2
      · rw [bulkLoop_cons_inr hp, List.filterMap_cons]
        simpa using h3
      · intro k hk e he
        cases k with
        | zero =>
          have : err = e := Sum.inr.inj he
          subst this
          rw [(processItem_inr hp).2.1, Nat.add_zero]
        | succ k' =>
          rw [List.get_cons_succ] at he
          have := h4 k' (by simpa using hk) e he
          omega

lemma bulkLoop_append (fault : Nat → Option String) :
    ∀ (l₁ l₂ : List CustomerInput) (st : State) (idx : Nat),
      bulkLoop fault st idx (l₁ ++ l₂) =
        ((bulkLoop fault (bulkLoop fault st idx l₁).1 (idx + l₁.length) l₂).1,
         (bulkLoop fault st idx l₁).2.1 ++
           (bulkLoop fault (bulkLoop fault st idx l₁).1 (idx + l₁.length) l₂).2.1,
         (bulkLoop fault st idx l₁).2.2 ++
           (bulkLoop fault (bulkLoop fault st idx l₁).1 (idx + l₁.length) l₂).2.2) := by
  intro l₁
  induction l₁ with
  | nil =>
    intro l₂ st idx
    simp [bulkLoop_nil]
  | cons c rest ih =>
    intro l₂ st idx
    rcases hp : processItem st fault idx c with ⟨st', o⟩
    have harith : idx + (c :: rest).length = idx + 1 + rest.length := by
      simp only [List.length_cons]
      omega
    cases o with
    | inl cust =>
      rw [List.cons_append, bulkLoop_cons_inl hp, ih, bulkLoop_cons_inl hp, harith]
      simp [List.cons_append]
    | inr err =>
      rw [List.cons_append, bulkLoop_cons_inr hp, ih, bulkLoop_cons_inr hp, harith]
      simp [List.cons_append]

lemma processItem_of_tryItem_ok {st st' : State} {fault : Nat → Option String} {idx : Nat}
    {c : CustomerInput} {cust : Customer}
    (h : tryItem st fault idx c = .ok (st', cust)) :
    processItem st fault idx c = (st', .inl cust) := by
  unfold processItem
  rw [h]

lemma processItem_customers_mono {st st' : State} {fault : Nat → Option String} {idx : Nat}
    {c : CustomerInput} {o : Customer ⊕ BulkError}
    (hp : processItem st fault idx c = (st', o)) :
    ∀ d ∈ st.customers, d ∈ st'.customers := by
  intro d hd
  cases o with
  | inl cust =>
    obtain ⟨hsave, _⟩ := tryItem_ok (processItem_inl hp)
    have hst : st' = (saveCustomer st c.name c.email c.phone).1 := congrArg Prod.fst hsave
    rw [hst]
    exact List.mem_append_left _ hd
  | inr err =>
    rw [(processItem_inr hp).1]
    exact hd

lemma bulkLoop_customers_mono (fault : Nat → Option String) :
    ∀ (inputs : List CustomerInput) (st : State) (idx : Nat) (d : Customer),
      d ∈ st.customers → d ∈ (bulkLoop fault st idx inputs).1.customers := by
  intro inputs
  induction inputs with
  | nil => intro st idx d hd; exact hd
  | cons c rest ih =>
    intro st idx d hd
    rcases hp : processItem st fault idx c with ⟨st', o⟩
    have hd' := processItem_customers_mono hp d hd
    cases o with
    | inl cust => rw [bulkLoop_cons_inl hp]; exact ih st' (idx + 1) d hd'
    | inr err => rw [bulkLoop_cons_inr hp]; exact ih st' (idx + 1) d hd'

lemma bulkLoop_fst_singleton {fault : Nat → Option String} {st : State} {idx : Nat}
    {c : CustomerInput} :
    (bulkLoop fault st idx [c]).1 = (processItem st fault idx c).1 := by
  rcases hp : processItem st fault idx c with ⟨st', o⟩
  cases o with
  | inl cust => rw [bulkLoop_cons_inl hp]; rfl
  | inr err => rw [bulkLoop_cons_inr hp]; rfl

lemma stateAt_succ {st : State} {fault : Nat → Option String} {inputs : List CustomerInput}
    {k : Nat} (hk : k < inputs.length) :
    stateAt st fault inputs (k + 1) =
      (processItem (stateAt st fault inputs k) fault k (inputs.get ⟨k, hk⟩)).1 := by
  unfold stateAt
  have ht : inputs.take (k + 1) = inputs.take k ++ [inputs.get ⟨k, hk⟩] := by
    rw [List.take_succ, List.getElem?_eq_getElem hk]
    rfl
  rw [ht, bulkLoop_append, bulkLoop_fst_singleton]
  have hlen : (inputs.take k).length = k := by
    rw [List.length_take]
    omega
  rw [Nat.zero_add, hlen]

lemma stateAt_mono_customers {st : State} {fault : Nat → Option String}
    {inputs : List CustomerInput} {i j : Nat} (hij : i ≤ j) (d : Customer)
    (hd : d ∈ (stateAt st fault inputs i).customers) :
    d ∈ (stateAt st fault inputs j).customers := by
  unfold stateAt at hd ⊢
  have hj : inputs.take j = inputs.take i ++ (inputs.drop i).take (j - i) := by
    have h := List.take_add inputs i (j - i)
    rw [Nat.add_sub_cancel' hij] at h
    exact h
  rw [hj, bulkLoop_append]
  exact bulkLoop_customers_mono fault _ _ _ d hd

/-- C1: for a bulk batch of size N the returned lists partition the N
input positions.  There is an outcome list with one entry per input, in
input order, whose left entries (in order) are exactly `created`, whose
right entries (in order) are exactly `errors`, and whose error at position
k carries index k; consequently `created.length + errors.length = N` and
the error indices are strictly increasing and below N. -/
theorem bulk_partition_ordering (st : State) (fault : Nat → Option String)
    (inputs : List CustomerInput) :
    (bulkCreateCustomers st fault inputs).2.1.length +
        (bulkCreateCustomers st fault inputs).2.2.length = inputs.length ∧
    ((bulkCreateCustomers st fault inputs).2.2.map BulkError.index).Sorted (· < ·) ∧
    (∀ e ∈ (bulkCreateCustomers st fault inputs).2.2, e.index < inputs.length) ∧
    ∃ oc : List (Customer ⊕ BulkError),
      oc.length = inputs.length ∧
      (bulkCreateCustomers st fault inputs).2.1 = oc.filterMap Sum.getLeft? ∧
      (bulkCreateCustomers st fault inputs).2.2 = oc.filterMap Sum.getRight? ∧
      ∀ (k : Nat) (hk : k < oc.length) (e : BulkError),
        oc.get ⟨k, hk⟩ = Sum.inr e → e.index = k := by
  refine ⟨bulkLoop_length fault inputs st 0, (bulkLoop_err_bounds fault inputs st 0).1,
    fun e he => ?_, ?_⟩
  · have := (bulkLoop_err_bounds fault inputs st 0).2 e he
    omega
  · obtain ⟨oc, h1, h2, h3, h4⟩ := bulkLoop_outcomes fault inputs st 0
    refine ⟨oc, h1, h2, h3, fun k hk e he => ?_⟩
    have := h4 k hk e he
    omega

/-- Witness for C1 on a concrete three-element batch with one success and
two failures. -/
theorem bulk_partition_ordering_witness :
    (bulkCreateCustomers emptyStore noFault
        [⟨"D", "d@x.com", none⟩, ⟨"", "e@x.com", none⟩, ⟨"F", "d@x.com", none⟩]).2.1.length +
      (bulkCreateCustomers emptyStore noFault
        [⟨"D", "d@x.com", none⟩, ⟨"", "e@x.com", none⟩, ⟨"F", "d@x.com", none⟩]).2.2.length = 3 :=
  (bulk_partition_ordering emptyStore noFault
    [⟨"D", "d@x.com", none⟩, ⟨"", "e@x.com", none⟩, ⟨"F", "d@x.com", none⟩]).1

/-- C4: the bulk mutation isolates per-item failures.  If the item at
position k passes all validations but its `save()` raises an arbitrary
non-GraphQL exception, the batch still returns, that item contributes one
error entry tagged with the unexpected-error prefix and the original
message, and every one of the N items still yields exactly one outcome
(`created.length + errors.length = N`). -/
theorem bulk_isolates_item_failures (st : State) (fault : Nat → Option String)
    (inputs : List CustomerInput) (k : Nat) (hk : k < inputs.length) (m : String)
    (hname : (inputs.get ⟨k, hk⟩).name ≠ "") (hemail : (inputs.get ⟨k, hk⟩).email ≠ "")
    (huniq : validate_email_unique (stateAt st fault inputs k)
        (inputs.get ⟨k, hk⟩).email = .ok ())
    (hphone : validate_phone (inputs.get ⟨k, hk⟩).phone = .ok ())
    (hf : fault k = some m) :
    (⟨k, some (inputs.get ⟨k, hk⟩).email, "Unexpected error: " ++ m⟩ : BulkError) ∈
        (bulkCreateCustomers st fault inputs).2.2 ∧
    (bulkCreateCustomers st fault inputs).2.1.length +
        (bulkCreateCustomers st fault inputs).2.2.length = inputs.length := by
  refine ⟨?_, bulkLoop_length fault inputs st 0⟩
  have hpi : processItem (stateAt st fault inputs k) fault k (inputs.get ⟨k, hk⟩) =
      ((stateAt st fault inputs k),
        .inr ⟨k, some (inputs.get ⟨k, hk⟩).email, "Unexpected error: " ++ m⟩) := by
    unfold processItem tryItem
    rw [if_neg (not_or.mpr ⟨hname, hemail⟩), huniq, hphone, hf]
  have hsplit : inputs = inputs.take k ++ (inputs.get ⟨k, hk⟩ :: inputs.drop (k + 1)) := by
    conv_lhs => rw [← List.take_append_drop k inputs]
    rw [List.drop_eq_getElem_cons hk]
    rfl
  show _ ∈ (bulkLoop fault st 0 inputs).2.2
  conv_lhs => rw [hsplit]
  rw [bulkLoop_append]
  have hlen : (inputs.take k).length = k := by
    rw [List.length_take]
    omega
  rw [Nat.zero_add, hlen]
  refine List.mem_append_right _ ?_
  have hsa : (bulkLoop fault st 0 (inputs.take k)).1 = stateAt st fault inputs k := rfl
  rw [hsa, bulkLoop_cons_inr hpi]
  exact List.mem_cons_self _ _

/-- Witness for C4: a storage fault on the first of two valid inputs is
reported as an unexpected error and the second input is still processed. -/
theorem bulk_isolates_item_failures_witness :
    (⟨0, some "a@x.com", "Unexpected error: db down"⟩ : BulkError) ∈
        (bulkCreateCustomers emptyStore
          (fun i => if i = 0 then some "db down" else none)
          [⟨"A", "a@x.com", none⟩, ⟨"B", "b@x.com", none⟩]).2.2 ∧
    (bulkCreateCustomers emptyStore (fun i => if i = 0 then some "db down" else none)
          [⟨"A", "a@x.com", none⟩, ⟨"B", "b@x.com", none⟩]).2.1.length +
        (bulkCreateCustomers emptyStore (fun i => if i = 0 then some "db down" else none)
          [⟨"A", "a@x.com", none⟩, ⟨"B", "b@x.com", none⟩]).2.2.length = 2 :=
  bulk_isolates_item_failures emptyStore (fun i => if i = 0 then some "db down" else none)
    [⟨"A", "a@x.com", none⟩, ⟨"B", "b@x.com", none⟩] 0 (by decide) "db down"
    (by decide) (by decide) rfl rfl rfl

/-- Counterexample to C2 as stated: a batch with two inputs carrying the
same (whitespace-padded) email produces no error at all — the second
uniqueness check compares the raw input against the stripped stored email
and misses, so both inputs are created. -/
theorem bulk_batch_duplicate_email_cx :
    (bulkCreateCustomers emptyStore noFault
        [⟨"A", " a@x.com ", none⟩, ⟨"B", " a@x.com ", none⟩]).2.2 = [] ∧
    (bulkCreateCustomers emptyStore noFault
        [⟨"A", " a@x.com ", none⟩, ⟨"B", " a@x.com ", none⟩]).2.1.length = 2 :=
  ⟨rfl, rfl⟩

/-- C2 amended: inside one bulk call the uniqueness check of item j sees
every item persisted before it.  If item i (i < j) succeeded, item j
carries the same email, that email is already trimmed, and item j has a
non-empty name, then item j fails with the duplicate-email error and
contributes the corresponding error entry; and on the concrete batch
`[(A, a@x.com), ("", b@x.com), (C, a@x.com)]` from an empty store the
result is `created = [A]` with a missing-field error at index 1 and a
duplicate-email error at index 2. -/
theorem bulk_batch_duplicate_email (st : State) (fault : Nat → Option String)
    (inputs : List CustomerInput) (i j : Nat) (hi : i < inputs.length)
    (hij : i < j) (hj : j < inputs.length)
    (hsame : (inputs.get ⟨j, hj⟩).email = (inputs.get ⟨i, hi⟩).email)
    (htrim : pyStrip (inputs.get ⟨i, hi⟩).email = (inputs.get ⟨i, hi⟩).email)
    (hname : (inputs.get ⟨j, hj⟩).name ≠ "")
    (hok : ∃ r, tryItem (stateAt st fault inputs i) fault i (inputs.get ⟨i, hi⟩) = .ok r) :
    processItem (stateAt st fault inputs j) fault j (inputs.get ⟨j, hj⟩) =
      ((stateAt st fault inputs j),
        .inr ⟨j, some (inputs.get ⟨j, hj⟩).email, EMAIL_EXISTS_MSG⟩) ∧
    (⟨j, some (inputs.get ⟨j, hj⟩).email, EMAIL_EXISTS_MSG⟩ : BulkError) ∈
        (bulkCreateCustomers st fault inputs).2.2 ∧
    (bulkCreateCustomers emptyStore noFault
        [⟨"A", "a@x.com", none⟩, ⟨"", "b@x.com", none⟩, ⟨"C", "a@x.com", none⟩]).2 =
      ([⟨1, "A", "a@x.com", ""⟩],
       [⟨1, some "b@x.com", "Both name and email are required."⟩,
        ⟨2, some "a@x.com", EMAIL_EXISTS_MSG⟩]) := by
  obtain ⟨r, htr⟩ := hok
  rcases r with ⟨sti, cust⟩
  obtain ⟨hsave, hnam_i, hmail_i, hval_i, _, _⟩ := tryItem_ok htr
  have hcust_email : cust.email = (inputs.get ⟨i, hi⟩).email := by
    have h2 : cust = (saveCustomer (stateAt st fault inputs i) (inputs.get ⟨i, hi⟩).name
        (inputs.get ⟨i, hi⟩).email (inputs.get ⟨i, hi⟩).phone).2 := congrArg Prod.snd hsave
    rw [h2]
    exact htrim
  have hmem1 : cust ∈ (stateAt st fault inputs (i + 1)).customers := by
    rw [stateAt_succ hi, processItem_of_tryItem_ok htr]
    have h1 : sti = (saveCustomer (stateAt st fault inputs i) (inputs.get ⟨i, hi⟩).name
        (inputs.get ⟨i, hi⟩).email (inputs.get ⟨i, hi⟩).phone).1 := congrArg Prod.fst hsave
    have h2 : cust = (saveCustomer (stateAt st fault inputs i) (inputs.get ⟨i, hi⟩).name
        (inputs.get ⟨i, hi⟩).email (inputs.get ⟨i, hi⟩).phone).2 := congrArg Prod.snd hsave
    show cust ∈ sti.customers
    rw [h1, h2]
    exact List.mem_append_right _ (List.mem_singleton_self _)
  have hmemj : cust ∈ (stateAt st fault inputs j).customers :=
    stateAt_mono_customers hij cust hmem1
  have hverr : validate_email_unique (stateAt st fault inputs j)
      (inputs.get ⟨j, hj⟩).email = .error (.graphql EMAIL_EXISTS_MSG) := by
    refine validate_email_unique_err hmemj ?_
    rw [hcust_email, hsame]
  have hpi : processItem (stateAt st fault inputs j) fault j (inputs.get ⟨j, hj⟩) =
      ((stateAt st fault inputs j),
        .inr ⟨j, some (inputs.get ⟨j, hj⟩).email, EMAIL_EXISTS_MSG⟩) := by
    unfold processItem tryItem
    rw [if_neg (not_or.mpr ⟨hname, hsame ▸ hmail_i⟩), hverr]
  refine ⟨hpi, ?_, rfl⟩
  have hsplit : inputs = inputs.take j ++ (inputs.get ⟨j, hj⟩ :: inputs.drop (j + 1)) := by
    conv_lhs => rw [← List.take_append_drop j inputs]
    rw [List.drop_eq_getElem_cons hj]
    rfl
  show _ ∈ (bulkLoop fault st 0 inputs).2.2
  conv_lhs => rw [hsplit]
  rw [bulkLoop_append]
  have hlen : (inputs.take j).length = j := by
    rw [List.length_take]
    omega
  rw [Nat.zero_add, hlen]
  refine List.mem_append_right _ ?_
  have hsa : (bulkLoop fault st 0 (inputs.take j)).1 = stateAt st fault inputs j := rfl
  rw [hsa, bulkLoop_cons_inr hpi]
  exact List.mem_cons_self _ _

/-- Witness for amended C2: in a two-element batch with the same trimmed
email the second item fails with the duplicate-email error. -/
theorem bulk_batch_duplicate_email_witness :
    (⟨1, some "a@x.com", EMAIL_EXISTS_MSG⟩ : BulkError) ∈
      (bulkCreateCustomers emptyStore noFault
        [⟨"A", "a@x.com", none⟩, ⟨"B", "a@x.com", none⟩]).2.2 :=
  (bulk_batch_duplicate_email emptyStore noFault
    [⟨"A", "a@x.com", none⟩, ⟨"B", "a@x.com", none⟩] 0 1 (by decide) (by decide)
    (by decide) rfl rfl (by decide)
    ⟨saveCustomer emptyStore "A" "a@x.com" none, rfl⟩).2.1

/-- A store already holding one customer with email `a@x.com`. -/
def oneCustomerStore : State := ⟨[⟨1, "A", "a@x.com", ""⟩], [], [], 2, 1⟩

/-- Counterexample to C3 as stated: starting from a store whose emails are
pairwise distinct ignoring case, a `createCustomer` call whose email is an
existing email padded with whitespace passes the uniqueness check (which
compares the raw input) but persists the trimmed email, leaving two
customers with identical emails. -/
theorem email_ci_uniqueness_cx :
    EmailsDistinct oneCustomerStore ∧
    (createCustomer oneCustomerStore "B" " a@x.com " none).2 = .ok ⟨2, "B", "a@x.com", ""⟩ ∧
    ¬ EmailsDistinct (createCustomer oneCustomerStore "B" " a@x.com " none).1 :=
  ⟨by decide, rfl, by decide⟩

/-- C3 amended: case-insensitive uniqueness of customer emails is
preserved by `createCustomer` and `bulkCreateCustomers` provided the input
emails carry no leading or trailing whitespace (`strip` leaves them
unchanged); and creating a customer whose email matches an existing one
ignoring case fails with the duplicate-email error. -/
theorem email_ci_uniqueness_preserved :
    (∀ (st : State) (name email : String) (phone : Option String) (st' : State)
        (cust : Customer), EmailsDistinct st → pyStrip email = email →
        createCustomer st name email phone = (st', .ok cust) → EmailsDistinct st') ∧
    (∀ (st : State) (fault : Nat → Option String) (inputs : List CustomerInput),
        EmailsDistinct st → (∀ c ∈ inputs, pyStrip c.email = c.email) →
        EmailsDistinct (bulkCreateCustomers st fault inputs).1) ∧
    (∀ (st : State) (name email : String) (phone : Option String),
        (∃ c ∈ st.customers, pyLower c.email = pyLower email) →
        createCustomer st name email phone = (st, .error (.graphql EMAIL_EXISTS_MSG))) := by
  refine ⟨?_, ?_, ?_⟩
  · intro st name email phone st' cust hd htrim hcc
    unfold createCustomer at hcc
    cases hv : validate_email_unique st email with
    | error e =>
      rw [hv] at hcc
      exact absurd (congrArg Prod.snd hcc) (by simp)
    | ok u =>
      rw [hv] at hcc
      cases hph : validate_phone phone with
      | error e =>
        rw [hph] at hcc
        exact absurd (congrArg Prod.snd hcc) (by simp)
      | ok v =>
        rw [hph] at hcc
        have hst : (saveCustomer st name email phone).1 = st' := congrArg Prod.fst hcc
        rw [← hst]
        cases u
        exact saveCustomer_preserves hd htrim hv
  · intro st fault inputs hd htr
    exact bulkLoop_preserves_distinct fault inputs st 0 hd htr
  · intro st name email phone h
    obtain ⟨c, hc, he⟩ := h
    unfold createCustomer
    rw [validate_email_unique_err hc he]

/-- Witness for amended C3: an email differing from a stored one only in
case is rejected with the duplicate-email error. -/
theorem email_ci_uniqueness_preserved_witness :
    createCustomer oneCustomerStore "B" "A@X.COM" none =
      (oneCustomerStore, .error (.graphql EMAIL_EXISTS_MSG)) :=
  email_ci_uniqueness_preserved.2.2 oneCustomerStore "B" "A@X.COM" none
    ⟨⟨1, "A", "a@x.com", ""⟩, by decide, by decide⟩

/-- C9: `validate_price_and_stock` fails with the invalid-price message on
an unparsable price, with the non-positive-price message when the parsed
price is ≤ 0, with the negative-stock message when a stock < 0 is
supplied; otherwise it returns the normalized pair, with the stock
defaulted to 0 when absent; and re-validating an already-valid output
succeeds with the identical normalized output. -/
theorem validate_price_and_stock_spec :
    (∀ s : Option Int, validate_price_and_stock .bad s =
        .error (.graphql "Price must be a valid decimal number.")) ∧
    (∀ (q : ℚ) (s : Option Int), q ≤ 0 → validate_price_and_stock (.num q) s =
        .error (.graphql "Price must be positive.")) ∧
    (∀ (q : ℚ) (k : Int), 0 < q → k < 0 → validate_price_and_stock (.num q) (some k) =
        .error (.graphql "Stock cannot be negative.")) ∧
    (∀ q : ℚ, 0 < q → validate_price_and_stock (.num q) none = .ok (q, 0)) ∧
    (∀ (q : ℚ) (k : Int), 0 < q → 0 ≤ k → validate_price_and_stock (.num q) (some k) =
        .ok (q, k)) ∧
    (∀ (p : PriceIn) (s : Option Int) (q : ℚ) (k : Int),
        validate_price_and_stock p s = .ok (q, k) →
        validate_price_and_stock (.num q) (some k) = .ok (q, k)) := by
  refine ⟨fun s => rfl, ?_, ?_, ?_, ?_, ?_⟩
  · intro q s hq
    simp only [validate_price_and_stock]
    rw [if_pos hq]
  · intro q k hq hk
    simp only [validate_price_and_stock]
    rw [if_neg (not_le.mpr hq), if_pos hk]
  · intro q hq
    simp only [validate_price_and_stock]
    rw [if_neg (not_le.mpr hq)]
  · intro q k hq hk
    simp only [validate_price_and_stock]
    rw [if_neg (not_le.mpr hq), if_neg (not_lt.mpr hk)]
  · intro p s q k h
    cases p with
    | bad => exact Except.noConfusion h
    | num q' =>
      cases s with
      | none =>
        simp only [validate_price_and_stock] at h ⊢
        by_cases hq' : q' ≤ 0
        · rw [if_pos hq'] at h; exact Except.noConfusion h
        · rw [if_neg hq'] at h
          obtain ⟨h1, h2⟩ := Prod.mk.inj (Except.ok.inj h)
          rw [← h1, ← h2, if_neg hq', if_neg (lt_irrefl (0 : Int))]
      | some k' =>
        simp only [validate_price_and_stock] at h ⊢
        by_cases hq' : q' ≤ 0
        · rw [if_pos hq'] at h; exact Except.noConfusion h
        · rw [if_neg hq'] at h
          by_cases hk' : k' < 0
          · rw [if_pos hk'] at h; exact Except.noConfusion h
          · rw [if_neg hk'] at h
            obtain ⟨h1, h2⟩ := Prod.mk.inj (Except.ok.inj h)
            rw [← h1, ← h2, if_neg hq', if_neg hk']

/-- Witness for C9 at phone-book prices: price `19.99`, stock `5`. -/
theorem validate_price_and_stock_spec_witness :
    validate_price_and_stock (.num (mkRat 1999 100)) (some 5) = .ok (mkRat 1999 100, 5) ∧
    validate_price_and_stock (.num (mkRat 1999 100)) (some 5) = .ok (mkRat 1999 100, 5) :=
  ⟨validate_price_and_stock_spec.2.2.2.2.1 (mkRat 1999 100) 5 (by decide) (by decide),
   validate_price_and_stock_spec.2.2.2.2.2 (.num (mkRat 1999 100)) (some 5) (mkRat 1999 100) 5
     (validate_price_and_stock_spec.2.2.2.2.1 (mkRat 1999 100) 5 (by decide) (by decide))⟩

/-- C6: every failed `createOrder` call leaves the store exactly as it
was; in particular when the product-link assignment inside the atomic
block fails after the order row was created, no order row persists. -/
theorem createOrder_atomic (st : State) (cid : GId) (pids : List GId)
    (od : Option Int) (now : Int) (f : Option String) (e : PyErr)
    (h : (createOrder st cid pids od now f).2 = .error e) :
    (createOrder st cid pids od now f).1 = st := by
  have hd : (createOrder st cid pids od now f).1 = st ∨
      ∃ o, (createOrder st cid pids od now f).2 = .ok o := by
    simp only [createOrder, createOrderWithPks]
    repeat' split
    all_goals first
      | exact Or.inl rfl
      | exact Or.inr ⟨_, rfl⟩
  cases hd with
  | inl h' => exact h'
  | inr h' =>
    obtain ⟨o, ho⟩ := h'
    rw [h] at ho
    exact Except.noConfusion ho

/-- Witness for C6: a link-assignment fault on a store with a valid
customer and product rolls the whole order creation back. -/
theorem createOrder_atomic_witness :
    (createOrder demoStore (.val 1) [.val 1] none 0 (some "disk failure")).1 = demoStore :=
  createOrder_atomic demoStore (.val 1) [.val 1] none 0 (some "disk failure")
    (.exc "disk failure") (by with_unfolding_all rfl)

/-- Counterexample to C5 as stated: `createCustomer` with a blank name
succeeds and persists a customer with an empty name instead of failing
with a missing-required-field error. -/
theorem createCustomer_blank_name_cx :
    (createCustomer emptyStore "" "x@y.com" none).2 = .ok ⟨1, "", "x@y.com", ""⟩ ∧
    (createCustomer emptyStore "" "x@y.com" none).1.customers = [⟨1, "", "x@y.com", ""⟩] :=
  ⟨rfl, rfl⟩

/-- C5 amended: `CreateCustomer.mutate` applies no name validation at
all — whenever the email-uniqueness and phone checks pass, the call
succeeds for any name (blank or not) and persists a customer whose stored
name is the trimmed input. -/
theorem createCustomer_ignores_name (st : State) (name email : String)
    (phone : Option String)
    (h1 : validate_email_unique st email = .ok ())
    (h2 : validate_phone phone = .ok ()) :
    createCustomer st name email phone =
      ((saveCustomer st name email phone).1, .ok (saveCustomer st name email phone).2) ∧
    (saveCustomer st name email phone).2.name = pyStrip name := by
  constructor
  · unfold createCustomer
    rw [h1, h2]
  · rfl

/-- Witness for amended C5: a whitespace-only name is accepted and stored
as the empty string. -/
theorem createCustomer_ignores_name_witness :
    createCustomer emptyStore "   " "y@z.com" none =
      ((saveCustomer emptyStore "   " "y@z.com" none).1,
        .ok (saveCustomer emptyStore "   " "y@z.com" none).2) ∧
    (saveCustomer emptyStore "   " "y@z.com" none).2.name = pyStrip "   " :=
  createCustomer_ignores_name emptyStore "   " "y@z.com" none rfl rfl

lemma mapM_parseId_none : ∀ l : List GId, l.mapM parseId = none ↔ GId.bad ∈ l := by
  intro l
  induction l with
  | nil => rw [List.mapM_nil]; simp
  | cons a l ih =>
    rw [List.mapM_cons]
    cases a with
    | bad => simp [parseId]
    | val n =>
      cases hl : l.mapM parseId with
      | none => simp [parseId, hl, ih.mp hl]
      | some ms =>
        have hnb : GId.bad ∉ l := fun hb => by
          have h0 := ih.mpr hb
          rw [h0] at hl
          exact Option.noConfusion hl
        simp [parseId, hl, hnb]

lemma mapM_parseId_sound : ∀ {l : List GId} {ns : List Int},
    l.mapM parseId = some ns → ∀ n : Int, (n ∈ ns ↔ GId.val n ∈ l) := by
  intro l
  induction l with
  | nil =>
    intro ns h n
    rw [List.mapM_nil] at h
    have h0 : ([] : List Int) = ns := Option.some.inj h
    rw [← h0]
    simp
  | cons a l ih =>
    intro ns h n
    rw [List.mapM_cons] at h
    cases a with
    | bad => simp [parseId] at h
    | val m =>
      cases hl : l.mapM parseId with
      | none => rw [hl] at h; simp [parseId] at h
      | some ms =>
        rw [hl] at h
        simp only [parseId, Option.some_bind, Option.bind_eq_bind] at h
        have hns : (m :: ms : List Int) = ns := Option.some.inj h
        rw [← hns]
        simp [List.mem_cons, ih hl n]

lemma sort_dedup_ext {l₁ l₂ : List Int} (h : ∀ x, x ∈ l₁ ↔ x ∈ l₂) :
    (l₁.dedup).insertionSort (· ≤ ·) = (l₂.dedup).insertionSort (· ≤ ·) := by
  have hperm : List.Perm l₁.dedup l₂.dedup :=
    (List.perm_ext_iff_of_nodup (List.nodup_dedup l₁) (List.nodup_dedup l₂)).mpr
      (fun x => by rw [List.mem_dedup, List.mem_dedup]; exact h x)
  have hp2 : List.Perm (l₁.dedup.insertionSort (· ≤ ·)) (l₂.dedup.insertionSort (· ≤ ·)) :=
    ((List.perm_insertionSort _ _).trans hperm).trans (List.perm_insertionSort _ _).symm
  exact List.eq_of_perm_of_sorted hp2 (List.sorted_insertionSort _ _)
    (List.sorted_insertionSort _ _)

lemma mem_missingSorted (st : State) (pks : List Int) (x : Int) :
    x ∈ missingSorted pks (foundProducts st pks) ↔
      x ∈ pks ∧ x ∉ st.products.map Product.id := by
  unfold missingSorted
  rw [List.mem_insertionSort, List.mem_dedup, List.mem_filter]
  simp only [decide_eq_true_eq]
  constructor
  · rintro ⟨hx, hnot⟩
    refine ⟨hx, fun hmem => hnot ?_⟩
    obtain ⟨p, hp, hpid⟩ := List.mem_map.mp hmem
    exact List.mem_map.mpr ⟨p, List.mem_filter.mpr ⟨hp, by simp [hpid, hx]⟩, hpid⟩
  · rintro ⟨hx, hnot⟩
    refine ⟨hx, fun hmem => hnot ?_⟩
    obtain ⟨p, hp, hpid⟩ := List.mem_map.mp hmem
    exact List.mem_map.mpr ⟨p, (List.mem_filter.mp hp).1, hpid⟩

lemma missingSorted_sorted_lt (pks : List Int) (products : List Product) :
    (missingSorted pks products).Sorted (· < ·) := by
  have hs : (missingSorted pks products).Sorted (· ≤ ·) := List.sorted_insertionSort _ _
  have hnd : (missingSorted pks products).Nodup :=
    ((List.perm_insertionSort _ _).nodup_iff).mpr (List.nodup_dedup _)
  exact (List.Pairwise.and hs hnd).imp (fun h => lt_of_le_of_ne h.1 h.2)

lemma createOrderWithPks_ok {st : State} {cpk : Int} {pks : List Int} {od : Option Int}
    {now : Int} {f : Option String} {o : Order}
    (h : (createOrderWithPks st cpk pks od now f).2 = .ok o) :
    o.productIds = (foundProducts st pks).map Product.id ∧
    o.totalAmount = ((foundProducts st pks).map Product.price).sum := by
  simp only [createOrderWithPks] at h
  by_cases hm : missingSorted pks (foundProducts st pks) ≠ []
  · rw [if_pos hm] at h
    exact absurd h (by simp)
  · rw [if_neg hm] at h
    cases f with
    | some m => exact absurd h (by simp)
    | none =>
      have ho := Except.ok.inj h
      rw [← ho]
      exact ⟨rfl, rfl⟩

lemma createOrder_cases (st : State) (cid : GId) (pids : List GId) (od : Option Int)
    (now : Int) (f : Option String) :
    (∃ e, createOrder st cid pids od now f = (st, .error e)) ∨
    (∃ cpk pks, cid = GId.val cpk ∧ pids.mapM parseId = some pks ∧
      createOrder st cid pids od now f = createOrderWithPks st cpk pks od now f) := by
  by_cases hne : pids = []
  · left
    refine ⟨.graphql "At least one product must be selected.", ?_⟩
    simp only [createOrder]
    rw [if_pos hne]
  · cases cid with
    | bad =>
      left
      refine ⟨.graphql "Invalid customer ID.", ?_⟩
      simp only [createOrder]
      rw [if_neg hne]
    | val cpk =>
      cases hfind : st.customers.find? (fun c => c.id = cpk) with
      | none =>
        left
        refine ⟨.graphql "Customer not found.", ?_⟩
        simp only [createOrder]
        rw [if_neg hne, hfind]
      | some cu =>
        cases hmap : pids.mapM parseId with
        | none =>
          left
          refine ⟨.graphql "All product IDs must be integers.", ?_⟩
          simp only [createOrder]
          rw [if_neg hne, hfind, hmap]
        | some pks =>
          right
          refine ⟨cpk, pks, rfl, rfl, ?_⟩
          simp only [createOrder]
          rw [if_neg hne, hfind, hmap]

lemma createOrder_ok {st : State} {cid : GId} {pids : List GId} {od : Option Int}
    {now : Int} {f : Option String} {o : Order}
    (h : (createOrder st cid pids od now f).2 = .ok o) :
    ∃ cpk pks, cid = GId.val cpk ∧ pids.mapM parseId = some pks ∧
      (createOrderWithPks st cpk pks od now f).2 = .ok o := by
  rcases createOrder_cases st cid pids od now f with ⟨e, hce⟩ | ⟨cpk, pks, hcid, hmap, hred⟩
  · rw [hce] at h
    exact absurd h (by simp)
  · rw [hred] at h
    exact ⟨cpk, pks, hcid, hmap, h⟩

lemma createOrderWithPks_ext (st : State) (cpk : Int) (od : Option Int) (now : Int)
    (f : Option String) {ints ints' : List Int} (hmem : ∀ n, n ∈ ints ↔ n ∈ ints') :
    createOrderWithPks st cpk ints od now f = createOrderWithPks st cpk ints' od now f := by
  have hfound : foundProducts st ints = foundProducts st ints' := by
    unfold foundProducts
    refine List.filter_congr ?_
    intro p hp
    rw [decide_eq_decide]
    exact hmem p.id
  have hmiss : missingSorted ints (foundProducts st ints) =
      missingSorted ints' (foundProducts st ints') := by
    rw [← hfound]
    unfold missingSorted
    apply sort_dedup_ext
    intro x
    rw [List.mem_filter, List.mem_filter]
    simp only [decide_eq_true_eq]
    exact and_congr_left (fun _ => hmem x)
  simp only [createOrderWithPks]
  rw [hmiss, hfound]

/-- The order created by the witness runs below: both demo products
linked, total exactly `1499.98`. -/
def demoOrder : Order := ⟨1, 1, [1, 2], 0, mkRat 149998 100⟩

/-- C7: the total of every successfully created order is the exact
decimal sum of the prices its linked products have in the store at
creation time, and that sum is independent of the summation order (any
permutation of the linked products yields the same total). -/
theorem order_total_exact (st : State) (cid : GId) (pids : List GId) (od : Option Int)
    (now : Int) (f : Option String) (o : Order)
    (h : (createOrder st cid pids od now f).2 = .ok o) :
    o.totalAmount =
      ((st.products.filter (fun p => decide (p.id ∈ o.productIds))).map Product.price).sum ∧
    ∀ l : List Product,
      List.Perm (st.products.filter (fun p => decide (p.id ∈ o.productIds))) l →
      o.totalAmount = (l.map Product.price).sum := by
  obtain ⟨cpk, pks, hcid, hmap, h2⟩ := createOrder_ok h
  obtain ⟨hpids, htot⟩ := createOrderWithPks_ok h2
  have hfilter : st.products.filter (fun p => decide (p.id ∈ o.productIds)) =
      foundProducts st pks := by
    rw [hpids]
    unfold foundProducts
    refine List.filter_congr ?_
    intro p hp
    rw [decide_eq_decide]
    constructor
    · intro hmem
      obtain ⟨q, hq, hqid⟩ := List.mem_map.mp hmem
      have hqpk := (List.mem_filter.mp hq).2
      rw [← hqid]
      simpa using hqpk
    · intro hmem
      exact List.mem_map.mpr ⟨p, List.mem_filter.mpr ⟨hp, by simpa using hmem⟩, rfl⟩
  constructor
  · rw [hfilter, htot]
  · intro l hperm
    rw [hfilter] at hperm
    rw [htot]
    exact List.Perm.sum_eq (hperm.map Product.price)

/-- Witness for C7: linking the products priced 999.99 and 499.99 yields
`total_amount = 1499.98` exactly. -/
theorem order_total_exact_witness :
    (createOrder demoStore (.val 1) [.val 1, .val 2] none 0 none).2 = .ok demoOrder ∧
    demoOrder.totalAmount =
      ((demoStore.products.filter (fun p => decide (p.id ∈ demoOrder.productIds))).map
        Product.price).sum ∧
    demoOrder.totalAmount = mkRat 149998 100 :=
  ⟨by with_unfolding_all rfl,
   (order_total_exact demoStore (.val 1) [.val 1, .val 2] none 0 none demoOrder
      (by with_unfolding_all rfl)).1,
   rfl⟩

/-- C8: when the call is past the empty-list, customer and id-parse
checks and some parsed product ids have no matching product, `createOrder`
fails naming exactly the missing ids, as a strictly ascending list, and
the store is untouched. -/
theorem order_missing_products (st : State) (cid : Int) (pids : List GId)
    (od : Option Int) (now : Int) (f : Option String) (pks : List Int) (cu : Customer)
    (hne : pids ≠ [])
    (hfind : st.customers.find? (fun c => c.id = cid) = some cu)
    (hmap : pids.mapM parseId = some pks)
    (hmiss : ∃ x ∈ pks, x ∉ st.products.map Product.id) :
    createOrder st (.val cid) pids od now f =
      (st, .error (.graphql
        ("Invalid product ID(s): " ++ toString (missingSorted pks (foundProducts st pks))))) ∧
    (missingSorted pks (foundProducts st pks)).Sorted (· < ·) ∧
    ∀ x, x ∈ missingSorted pks (foundProducts st pks) ↔
      x ∈ pks ∧ x ∉ st.products.map Product.id := by
  have hmne : missingSorted pks (foundProducts st pks) ≠ [] := by
    obtain ⟨x, hx1, hx2⟩ := hmiss
    exact List.ne_nil_of_mem ((mem_missingSorted st pks x).mpr ⟨hx1, hx2⟩)
  refine ⟨?_, missingSorted_sorted_lt pks (foundProducts st pks), mem_missingSorted st pks⟩
  simp only [createOrder]
  rw [if_neg hne, hfind, hmap]
  show createOrderWithPks st cid pks od now f = _
  simp only [createOrderWithPks]
  rw [if_pos hmne]

/-- Witness for C8: requesting product ids `[1, 2, 999]` when only 1 and 2
exist fails naming `[999]`. -/
theorem order_missing_products_witness :
    createOrder demoStore (.val 1) [.val 1, .val 2, .val 999] none 0 none =
      (demoStore, .error (.graphql
        ("Invalid product ID(s): " ++
          toString (missingSorted [1, 2, 999] (foundProducts demoStore [1, 2, 999]))))) ∧
    toString (missingSorted [1, 2, 999] (foundProducts demoStore [1, 2, 999])) = "[999]" :=
  ⟨(order_missing_products demoStore 1 [.val 1, .val 2, .val 999] none 0 none [1, 2, 999]
      ⟨1, "Alice", "alice@example.com", ""⟩ (by decide) (by decide) (by decide)
      ⟨999, by decide, by decide⟩).1,
   by decide⟩

/-- C10: duplicates in `productIds` are harmless — `createOrder` returns
exactly what it returns on the deduplicated id list (so a repeated
existing id neither triggers the missing-product error nor is counted
twice in the total), and in a store with distinct product ids the created
order links each product at most once. -/
theorem order_duplicate_ids_collapse :
    (∀ (st : State) (cid : GId) (pids : List GId) (od : Option Int) (now : Int)
        (f : Option String),
      createOrder st cid pids od now f = createOrder st cid pids.dedup od now f) ∧
    (∀ (st : State) (cid : GId) (pids : List GId) (od : Option Int) (now : Int)
        (f : Option String) (o : Order),
      (createOrder st cid pids od now f).2 = .ok o →
      (st.products.map Product.id).Nodup → o.productIds.Nodup) := by
  constructor
  · intro st cid pids od now f
    by_cases hne : pids = []
    · rw [hne, List.dedup_nil]
    · have hne' : pids.dedup ≠ [] := by
        intro h0
        obtain ⟨x, hx⟩ := List.exists_mem_of_ne_nil pids hne
        have hxd := List.mem_dedup.mpr hx
        rw [h0] at hxd
        exact absurd hxd (List.not_mem_nil x)
      cases cid with
      | bad =>
        simp only [createOrder]
        rw [if_neg hne, if_neg hne']
      | val cpk =>
        simp only [createOrder]
        rw [if_neg hne, if_neg hne']
        cases hfind : st.customers.find? (fun c => c.id = cpk) with
        | none => rfl
        | some cu =>
          cases hmapl : pids.mapM parseId with
          | none =>
            have hmapr : pids.dedup.mapM parseId = none := by
              rw [mapM_parseId_none] at hmapl ⊢
              exact List.mem_dedup.mpr hmapl
            rw [hmapr]
          | some ints =>
            cases hmapr : pids.dedup.mapM parseId with
            | none =>
              exfalso
              rw [mapM_parseId_none] at hmapr
              have hbad : GId.bad ∈ pids := List.mem_dedup.mp hmapr
              have h0 := (mapM_parseId_none pids).mpr hbad
              rw [h0] at hmapl
              exact Option.noConfusion hmapl
            | some ints' =>
              have hmemeq : ∀ n : Int, n ∈ ints ↔ n ∈ ints' := by
                intro n
                rw [mapM_parseId_sound hmapl n, mapM_parseId_sound hmapr n, List.mem_dedup]
              show createOrderWithPks st cpk ints od now f =
                createOrderWithPks st cpk ints' od now f
              exact createOrderWithPks_ext st cpk od now f hmemeq
  · intro st cid pids od now f o h hnd
    obtain ⟨cpk, pks, hcid, hmap, h2⟩ := createOrder_ok h
    obtain ⟨hpids, _⟩ := createOrderWithPks_ok h2
    rw [hpids]
    exact hnd.sublist ((List.filter_sublist st.products).map Product.id)

/-- Witness for C10: requesting `[1, 1, 2]` succeeds, links each product
once, and equals the call on the deduplicated list. -/
theorem order_duplicate_ids_collapse_witness :
    (createOrder demoStore (.val 1) [.val 1, .val 1, .val 2] none 0 none).2 = .ok demoOrder ∧
    demoOrder.productIds.Nodup ∧
    createOrder demoStore (.val 1) [.val 1, .val 1, .val 2] none 0 none =
      createOrder demoStore (.val 1) ([.val 1, .val 1, .val 2].dedup) none 0 none :=
  ⟨by with_unfolding_all rfl,
   order_duplicate_ids_collapse.2 demoStore (.val 1) [.val 1, .val 1, .val 2] none 0 none
     demoOrder (by with_unfolding_all rfl) (by decide),
   order_duplicate_ids_collapse.1 demoStore (.val 1) [.val 1, .val 1, .val 2] none 0 none⟩

end Crm
